import Mathlib

/-!
Shallow embedding of the conversation-history engine of
`claude_history_manager.py`: the token estimator, the message and
conversation token accounting, the single-file analyzer, the project
indexer, the bounded caches and the per-conversation search.
Text is modelled as `List Char`; Python floats are modelled by exact
rational arithmetic.
-/

/-- Characters matched by the regex class `[一-鿿]` (CJK ideographs). -/
def isChineseChar (c : Char) : Bool :=
  decide (0x4E00 ≤ c.toNat ∧ c.toNat ≤ 0x9FFF)

/-- Characters matched by the regex class `[a-zA-Z]`. -/
def isEnglishChar (c : Char) : Bool :=
  decide ((0x61 ≤ c.toNat ∧ c.toNat ≤ 0x7A) ∨ (0x41 ≤ c.toNat ∧ c.toNat ≤ 0x5A))

/-- Characters matched by the regex class `[0-9]`. -/
def isDigitChar (c : Char) : Bool :=
  decide (0x30 ≤ c.toNat ∧ c.toNat ≤ 0x39)

/-- Characters matched by the regex class `\s` (the whitespace set also used
by Python's `str.strip`). -/
def isSpaceChar (c : Char) : Bool :=
  decide ((0x09 ≤ c.toNat ∧ c.toNat ≤ 0x0D) ∨ (0x1C ≤ c.toNat ∧ c.toNat ≤ 0x1F) ∨
    c.toNat = 0x20 ∨ c.toNat = 0x85 ∨ c.toNat = 0xA0 ∨ c.toNat = 0x1680 ∨
    (0x2000 ≤ c.toNat ∧ c.toNat ≤ 0x200A) ∨ c.toNat = 0x2028 ∨ c.toNat = 0x2029 ∨
    c.toNat = 0x202F ∨ c.toNat = 0x205F ∨ c.toNat = 0x3000)

/-- Characters matched by the regex class `\w`: letters, digits and the
underscore.  Letters outside ASCII and the CJK ideograph range do not occur
in this development, so `\w` is modelled on ASCII plus the CJK range. -/
def isWordChar (c : Char) : Bool :=
  isEnglishChar c || isDigitChar c || decide (c.toNat = 0x5F) || isChineseChar c

/-- Characters matched by the regex class `[^\w\s一-鿿]`
(punctuation in the estimator's sense). -/
def isPunctChar (c : Char) : Bool :=
  !(isWordChar c) && !(isSpaceChar c) && !(isChineseChar c)

/-- `len(re.findall(r"[一-鿿]", text))`. -/
def chinese_chars (t : List Char) : Nat := (t.filter isChineseChar).length

/-- `len(re.findall(r"[a-zA-Z]", text))`. -/
def english_chars (t : List Char) : Nat := (t.filter isEnglishChar).length

/-- `len(re.findall(r"[0-9]", text))`. -/
def digit_chars (t : List Char) : Nat := (t.filter isDigitChar).length

/-- `len(re.findall(r"\s", text))`. -/
def space_chars (t : List Char) : Nat := (t.filter isSpaceChar).length

/-- `len(re.findall(r"[^\w\s一-鿿]", text))`. -/
def punct_chars (t : List Char) : Nat := (t.filter isPunctChar).length

/-- Python's `str.strip()`: remove leading and trailing whitespace. -/
def pyStrip (s : List Char) : List Char :=
  ((s.dropWhile isSpaceChar).reverse.dropWhile isSpaceChar).reverse

/-- `TokenCalculator._estimate_tokens`: the weighted character-class
estimate `chinese*1.8 + english/4.0 + digit/2.0 + (space+punct)/5.0`,
truncated to an integer by `int(·)`, with a floor of 1.  The weighted sum is
a rational with denominator 20, so `int(total)` (truncation of the
non-negative total, i.e. its floor) is computed exactly over the common
denominator: `(36*chinese + 5*english + 10*digit + 4*other) / 20` in natural
division.  The lemma `estimate_tokens_eq_floor` below re-expresses this as
the floor of the rational weighted sum. -/
def estimate_tokens (t : List Char) : Nat :=
  if t = [] then 0
  else
    max 1 ((36 * chinese_chars t + 5 * english_chars t + 10 * digit_chars t +
      4 * (space_chars t + punct_chars t)) / 20)

/-- `TokenCalculator.count_tokens` in estimate mode (no external encoder):
empty or whitespace-only input yields 0, otherwise the stripped text is
estimated. -/
def count_tokens (s : List Char) : Nat :=
  if pyStrip s = [] then 0 else estimate_tokens (pyStrip s)

/-- `TokenCalculator.count_tokens` in precise mode: the external encoder is
modelled as a function returning the token list, or `none` when encoding
raises (in which case the call falls back to the estimate). -/
def count_tokens_precise (enc : List Char → Option (List Nat)) (s : List Char) : Nat :=
  if pyStrip s = [] then 0
  else
    match enc (pyStrip s) with
    | some toks => toks.length
    | none => estimate_tokens (pyStrip s)

/-- One block of a structured `message.content` list: a `text` block, an
`image` block, or a block of any other type. -/
inductive ContentBlock where
  | text (s : List Char)
  | image
  | other
deriving DecidableEq

/-- The `message.content` field of a parsed log line: either a plain string
or a list of typed blocks.  A missing `message` or `content` key defaults to
the empty string, as `data.get('message', {}).get('content', '')` does. -/
inductive Content where
  | str (s : List Char)
  | blocks (bs : List ContentBlock)
deriving DecidableEq

/-- One successfully parsed log line (`json.loads` of one line).  Fields
mirror the dictionary accesses of the source: `type` is
`data.get('type', '')`, `summary` is `data.get('summary', '')`, `content`
is `data.get('message', {}).get('content', '')`.  `tsRaw` models
`data.get('timestamp')`: `none` when the field is absent or falsy,
`some none` when present but not ISO-parsable, `some (some ts)` when it
parses to the instant `ts`. -/
structure LogRecord where
  type : List Char
  summary : List Char
  content : Content
  tsRaw : Option (Option Int)
deriving DecidableEq

/-- `TokenCalculator._calculate_message_tokens`: summary messages count the
summary text; user/assistant messages count a plain-string content directly,
or fold over the block list counting text blocks and adding 85 per image
block; every message then adds the fixed structural overhead of 10. -/
def calculate_message_tokens (d : LogRecord) : Nat :=
  (if d.type = ("summary".data) then count_tokens d.summary
   else if d.type = ("user".data) ∨ d.type = ("assistant".data) then
     match d.content with
     | .str s => count_tokens s
     | .blocks bs =>
       bs.foldl (fun acc b =>
         match b with
         | .text s => acc + count_tokens s
         | .image => acc + 85
         | .other => acc) 0
   else 0) + 10

/-- Python's `round(·, 1)` on an exact rational: scale by 10, round half to
even, scale back. -/
def pyRound1 (q : ℚ) : ℚ :=
  (((if q * 10 - ⌊q * 10⌋ < 1 / 2 then ⌊q * 10⌋
     else if 1 / 2 < q * 10 - ⌊q * 10⌋ then ⌊q * 10⌋ + 1
     else if ⌊q * 10⌋ % 2 = 0 then ⌊q * 10⌋ else ⌊q * 10⌋ + 1) : ℤ) : ℚ) / 10

/-- The per-conversation token statistics returned by
`TokenCalculator.analyze_conversation_tokens`. -/
structure TokenAnalysis where
  total_tokens : Nat
  user_tokens : Nat
  assistant_tokens : Nat
  summary_tokens : Nat
  message_count : Nat
  avg_tokens_per_message : ℚ
deriving DecidableEq

/-- Accumulator of the loop inside `analyze_conversation_tokens`. -/
structure TokAcc where
  total_tokens : Nat
  user_tokens : Nat
  assistant_tokens : Nat
  summary_tokens : Nat
  message_count : Nat
deriving DecidableEq

/-- One iteration of the loop of `analyze_conversation_tokens`: add the
message's tokens to the running total, bump the message count, and add to
the per-type subtotal selected by the `type` field. -/
def tok_step (acc : TokAcc) (d : LogRecord) : TokAcc :=
  let msg_tokens := calculate_message_tokens d
  { total_tokens := acc.total_tokens + msg_tokens
    user_tokens := if d.type = ("user".data) then acc.user_tokens + msg_tokens else acc.user_tokens
    assistant_tokens := if d.type = ("assistant".data) then acc.assistant_tokens + msg_tokens
      else acc.assistant_tokens
    summary_tokens := if d.type = ("summary".data) then acc.summary_tokens + msg_tokens
      else acc.summary_tokens
    message_count := acc.message_count + 1 }

/-- `TokenCalculator.analyze_conversation_tokens`: all-zero statistics for
an empty conversation, otherwise the loop totals with the rounded average.
(`count_message_tokens`, the memoized wrapper around
`_calculate_message_tokens`, always returns the computed value, so it is
modelled by `calculate_message_tokens` itself; its cache bound is treated
separately.) -/
def analyze_conversation_tokens (conversation_data : List (Nat × LogRecord)) : TokenAnalysis :=
  if conversation_data = [] then
    { total_tokens := 0, user_tokens := 0, assistant_tokens := 0, summary_tokens := 0
      message_count := 0, avg_tokens_per_message := 0 }
  else
    let acc := conversation_data.foldl (fun a p => tok_step a p.2)
      { total_tokens := 0, user_tokens := 0, assistant_tokens := 0, summary_tokens := 0
        message_count := 0 }
    let avg_tokens : ℚ := if 0 < acc.message_count then
      (acc.total_tokens : ℚ) / (acc.message_count : ℚ) else 0
    { total_tokens := acc.total_tokens, user_tokens := acc.user_tokens
      assistant_tokens := acc.assistant_tokens, summary_tokens := acc.summary_tokens
      message_count := acc.message_count, avg_tokens_per_message := pyRound1 avg_tokens }

/-- One physical line of a `.jsonl` file as `_perform_file_analysis` sees
it: blank (skipped before parsing), malformed (raising `JSONDecodeError`,
skipped), or a successfully parsed record. -/
inductive Line where
  | blank
  | bad
  | ok (d : LogRecord)
deriving DecidableEq

/-- A log file together with the metadata obtained from `file_path.stat()`
and the lines its contents parse to. -/
structure FileInput where
  file_name : List Char
  file_path : List Char
  st_size : Nat
  st_mtime : Int
  st_ctime : Int
  lines : List Line
deriving DecidableEq

/-- The record produced by `_perform_file_analysis` for one conversation
file. -/
structure ConversationRecord where
  file_name : List Char
  file_path : List Char
  file_size : Nat
  modified_time : Int
  created_time : Int
  message_count : Nat
  summary : Option (List Char)
  first_user_msg : Option (List Char)
  last_timestamp : Option Int
  total_tokens : Nat
  token_analysis : TokenAnalysis
deriving DecidableEq

/-- Python's `str.strip('"')`: remove leading and trailing double-quote
characters. -/
def stripQuotes (s : List Char) : List Char :=
  ((s.dropWhile (fun c => c.toNat = 0x22)).reverse.dropWhile
    (fun c => c.toNat = 0x22)).reverse

/-- The preview truncation `content[:100] + '...' if len(content) > 100
else content`: text longer than 100 characters keeps its first 100
characters and gains a trailing ellipsis. -/
def truncate_preview (s : List Char) : List Char :=
  if 100 < s.length then s.take 100 ++ ("...".data) else s

/-- The text the preview of a user message is taken from: a plain-string
content directly, or the text of the first block when the block list is
non-empty and starts with a text block; `none` otherwise (the preview is
then left unset and a later user message may provide it). -/
def preview_source : Content → Option (List Char)
  | .str s => some s
  | .blocks (.text s :: _) => some s
  | .blocks _ => none

/-- Loop state of `_perform_file_analysis`: the running message count, the
latest summary, the first user-message preview, the most recent parsed
timestamp, and the parsed lines collected for token analysis. -/
structure ScanState where
  message_count : Nat
  summary : Option (List Char)
  first_user_msg : Option (List Char)
  last_timestamp : Option Int
  conversation_data : List (Nat × LogRecord)
deriving DecidableEq

/-- One iteration of the loop of `_perform_file_analysis` at physical line
number `n`: blank and malformed lines leave the state unchanged; a parsed
record is appended to `conversation_data`, bumps `message_count` when its
type is user/assistant, sets the preview on the first user message with
extractable text, overwrites the summary on summary lines, and updates the
last timestamp when the line carries a parsable one. -/
def scan_line (st : ScanState) (n : Nat) : Line → ScanState
  | .blank => st
  | .bad => st
  | .ok d =>
    { conversation_data := st.conversation_data ++ [(n, d)]
      message_count :=
        if d.type = ("user".data) ∨ d.type = ("assistant".data) then st.message_count + 1
        else st.message_count
      first_user_msg :=
        if (d.type = ("user".data) ∨ d.type = ("assistant".data)) ∧
            st.first_user_msg = none ∧ d.type = ("user".data) then
          (preview_source d.content).map truncate_preview
        else st.first_user_msg
      summary :=
        if d.type = ("summary".data) then some (stripQuotes d.summary) else st.summary
      last_timestamp :=
        match d.tsRaw with
        | some (some ts) => some ts
        | _ => st.last_timestamp }

/-- The whole loop of `_perform_file_analysis`, with `enumerate(f, 1)`
numbering every physical line. -/
def scan_lines (st : ScanState) (n : Nat) : List Line → ScanState
  | [] => st
  | l :: ls => scan_lines (scan_line st n l) (n + 1) ls

/-- `_perform_file_analysis`: scan the lines, run the token analysis over
the collected parsed records, and assemble the `ConversationRecord`. -/
def perform_file_analysis (f : FileInput) : ConversationRecord :=
  let st := scan_lines
    { message_count := 0, summary := none, first_user_msg := none
      last_timestamp := none, conversation_data := [] } 1 f.lines
  let token_analysis := analyze_conversation_tokens st.conversation_data
  { file_name := f.file_name, file_path := f.file_path, file_size := f.st_size
    modified_time := f.st_mtime, created_time := f.st_ctime
    message_count := st.message_count, summary := st.summary
    first_user_msg := st.first_user_msg, last_timestamp := st.last_timestamp
    total_tokens := token_analysis.total_tokens, token_analysis := token_analysis }

/-- `_analyze_conversation_file` on a readable file: the (path, mtime)
cache is transparent — a hit returns the identical previously computed
record — so the result is the analysis itself.  (The `none` result only
arises from I/O errors, which are outside this model.) -/
def analyze_conversation_file (f : FileInput) : Option ConversationRecord :=
  some (perform_file_analysis f)

/-- Insertion step of the descending-by-modification-time sort applied to a
project's records. -/
def insert_rec_desc (r : ConversationRecord) : List ConversationRecord → List ConversationRecord
  | [] => [r]
  | x :: xs =>
    if x.modified_time ≤ r.modified_time then r :: x :: xs else x :: insert_rec_desc r xs

/-- `conversations.sort(key=lambda x: x['modified_time'], reverse=True)`:
sort the records by modification time, newest first. -/
def sort_by_mtime_desc (l : List ConversationRecord) : List ConversationRecord :=
  l.foldr insert_rec_desc []

/-- `_analyze_project_concurrent`: analyze every `.jsonl` file of the
project (an empty project returns an empty list at once), keep the records
of the files that analyzed successfully, and sort them newest-first.  The
worker pool only parallelizes the per-file analyses; the collected result
is order-insensitive because of the final sort. -/
def analyze_project_concurrent (project_name : List Char) (files : List FileInput) :
    List Char × List ConversationRecord :=
  if files = [] then (project_name, [])
  else (project_name, sort_by_mtime_desc (files.filterMap analyze_conversation_file))

/-- One subdirectory of the root projects path together with its `.jsonl`
files. -/
structure ProjectInput where
  name : List Char
  files : List FileInput
deriving DecidableEq

/-- The externally visible project index `self.projects_data`: project name
to its ordered conversation records. -/
abbrev ProjectIndex := List (List Char × List ConversationRecord)

/-- The error surfaced by the loader: the pre-scan missing-root check of
`_load_projects`, or the catch-all of `_load_projects_thread`. -/
inductive LoadError where
  | rootMissing
  | loadFailed
deriving DecidableEq

/-- The index assembled by the scan loop of `_load_projects_thread`: each
project is analyzed and stored under its name when it has at least one
conversation. -/
def build_index (dirs : List ProjectInput) : ProjectIndex :=
  dirs.foldl (fun pd p =>
    let res := analyze_project_concurrent p.name p.files
    if res.2 = [] then pd else pd ++ [res]) []

/-- `_load_projects_thread`: the body starts by resetting
`self.projects_data = {}` and only then enumerates the root directory
(`listing`, which is `none` when `iterdir` raises).  A top-level failure is
caught, an error dialog is shown, and the index keeps the cleared value; on
success the index is the freshly built one.  The previous index `prev` is
never consulted. -/
def load_projects_thread (prev : ProjectIndex) (listing : Option (List ProjectInput)) :
    Option LoadError × ProjectIndex :=
  match prev, listing with
  | _, none => (some LoadError.loadFailed, [])
  | _, some dirs => (none, build_index dirs)

/-- `_load_projects`: when the root projects path does not exist, an error
dialog is shown and the method returns before starting the scan thread, so
the index is untouched; otherwise the background thread runs. -/
def load_projects (root_exists : Bool) (prev : ProjectIndex)
    (listing : Option (List ProjectInput)) : Option LoadError × ProjectIndex :=
  if root_exists = false then (some LoadError.rootMissing, prev)
  else load_projects_thread prev listing

/-- Python dict assignment `c[k] = v` on an insertion-ordered map: replace
in place when the key is present, append otherwise. -/
def dictInsert {K V : Type} [DecidableEq K] (c : List (K × V)) (k : K) (v : V) :
    List (K × V) :=
  if c.any (fun p => p.1 = k) then c.map (fun p => if p.1 = k then (k, v) else p)
  else c ++ [(k, v)]

/-- One call of `TokenCalculator.count_message_tokens` as it affects the
message-token cache: a hit leaves the cache unchanged; a miss appends the
computed entry and, when the cache then exceeds 500 entries, evicts the 100
oldest-inserted entries in one batch. -/
def message_cache_step {K V : Type} [DecidableEq K] (c : List (K × V)) (k : K) (v : V) :
    List (K × V) :=
  if c.any (fun p => p.1 = k) then c
  else
    let c2 := c ++ [(k, v)]
    if 500 < c2.length then c2.drop 100 else c2

/-- One miss of `_analyze_conversation_file` as it affects the
file-analysis cache via `_cache_file_analysis`: when the cache has reached
100 entries the 20 oldest-inserted entries are evicted first, then the new
entry is stored. -/
def file_cache_step {K V : Type} [DecidableEq K] (c : List (K × V)) (k : K) (v : V) :
    List (K × V) :=
  if c.any (fun p => p.1 = k) then c
  else dictInsert (if 100 ≤ c.length then c.drop 20 else c) k v

/-- One miss of `_search_conversations_thread` as it affects the
search-result cache via `_cache_search_results`: when the cache has reached
50 entries the single oldest-inserted entry is evicted, then the new entry
is stored. -/
def search_cache_step {K V : Type} [DecidableEq K] (c : List (K × V)) (k : K) (v : V) :
    List (K × V) :=
  if c.any (fun p => p.1 = k) then c
  else dictInsert (if 50 ≤ c.length then c.drop 1 else c) k v

/-- Run a sequence of cache operations from the empty cache. -/
def run_cache {K V : Type} (step : List (K × V) → K → V → List (K × V))
    (ops : List (K × V)) : List (K × V) :=
  ops.foldl (fun c p => step c p.1 p.2) []

/-- One match entry produced by `_search_in_conversation`. -/
structure SearchMatch where
  line_number : Nat
  field_name : List Char
  message_type : List Char
  timestamp : Option Int
  preview : Bool
deriving DecidableEq

/-- `_extract_searchable_text`: summary text for summary records, the plain
string or the space-joined text blocks for user/assistant records, and the
empty string otherwise. -/
def extract_searchable_text (d : LogRecord) : List Char :=
  if d.type = ("summary".data) then d.summary
  else if d.type = ("user".data) ∨ d.type = ("assistant".data) then
    match d.content with
    | .str s => s
    | .blocks bs =>
      List.intercalate (" ".data) (bs.filterMap (fun b =>
        match b with
        | .text s => some s
        | _ => none))
  else []

/-- The f-string rendering of an optional text field in
`f"{first_user_msg} {summary}"`: `None` renders as the four characters
`None`. -/
def pyFormatOpt : Option (List Char) → List Char
  | none => "None".data
  | some s => s

/-- The full-scan loop of `_search_in_conversation`: skip blank and
malformed lines, test the extracted text of each parsed record (an empty
extraction is falsy and never matches), record a content match, and stop as
soon as 10 matches are collected. -/
def search_scan (p : List Char → Bool) (acc : List SearchMatch) (n : Nat) :
    List Line → List SearchMatch
  | [] => acc
  | .blank :: ls => search_scan p acc (n + 1) ls
  | .bad :: ls => search_scan p acc (n + 1) ls
  | .ok d :: ls =>
    let content_text := extract_searchable_text d
    if content_text ≠ [] ∧ p content_text = true then
      let acc2 := acc ++ [SearchMatch.mk n ("content".data) d.type d.tsRaw.join false]
      if 10 ≤ acc2.length then acc2 else search_scan p acc2 (n + 1) ls
    else search_scan p acc (n + 1) ls

/-- `_search_in_conversation`: the compiled case-insensitive pattern is
modelled by its boolean search function `p`.  The quick check tests the
preview and summary joined with one space; a hit returns the single
short-circuit match without touching the file, and only a miss scans the
file's lines. -/
def search_in_conversation (p : List Char → Bool) (conv : ConversationRecord)
    (fileLines : List Line) : List SearchMatch :=
  let quick_content := pyFormatOpt conv.first_user_msg ++ (" ".data) ++
    pyFormatOpt conv.summary
  if p quick_content = true then
    [{ line_number := 0, field_name := ("preview".data)
       message_type := ("quick_match".data), timestamp := conv.last_timestamp
       preview := true }]
  else search_scan p [] 1 fileLines

/-- Claim-side form of the estimate: `max(1, floor(CJK*1.8 + Latin/4 +
digit/2 + other/5))` where `other` counts whitespace plus punctuation. -/
def claimed_estimate (t : List Char) : Nat :=
  (max 1 ⌊(chinese_chars t : ℚ) * (18 / 10) + (english_chars t : ℚ) / 4 +
    (digit_chars t : ℚ) / 2 + ((space_chars t : ℚ) + (punct_chars t : ℚ)) / 5⌋).toNat

/-- Claim-side view of a message content as a list of blocks: a plain
string is the single text block holding it. -/
def claimed_blocks : Content → List ContentBlock
  | .str s => [.text s]
  | .blocks bs => bs

/-- Claim-side per-block token cost: the text's token count for a text
block, the fixed 85 for an image block, nothing for any other block. -/
def claimed_block_tokens : ContentBlock → Nat
  | .text s => count_tokens s
  | .image => 85
  | .other => 0

/-- Claim-side message-level token count: the summary text's count for
summary messages, the sum of the per-block costs for user/assistant
messages, nothing for unrecognized types, plus the structural overhead of
10 for every message. -/
def claimed_message_tokens (d : LogRecord) : Nat :=
  (if d.type = ("summary".data) then count_tokens d.summary
   else if d.type = ("user".data) ∨ d.type = ("assistant".data) then
     ((claimed_blocks d.content).map claimed_block_tokens).sum
   else 0) + 10

/-- First-match option: the left value when present, the right one
otherwise. -/
def opt_or {α : Type} : Option α → Option α → Option α
  | some x, _ => some x
  | none, b => b

/-- Claim-side preview of a file: the first user-type parsed line with
extractable text provides the preview, truncated with the trailing
ellipsis when longer than 100 characters. -/
def spec_first_preview : List Line → Option (List Char)
  | [] => none
  | Line.ok d :: ls =>
    if d.type = ("user".data) then
      match preview_source d.content with
      | some s => some (truncate_preview s)
      | none => spec_first_preview ls
    else spec_first_preview ls
  | Line.blank :: ls => spec_first_preview ls
  | Line.bad :: ls => spec_first_preview ls

/-- Lines whose parsed record has type user or assistant. -/
def is_ua_line : Line → Bool
  | Line.ok d => decide (d.type = ("user".data) ∨ d.type = ("assistant".data))
  | _ => false

/-- Lines that parse successfully (of any type). -/
def is_parsed_line : Line → Bool
  | Line.ok _ => true
  | _ => false

/-- Lines that parse successfully to a type other than user or assistant
(a summary or an unrecognized type). -/
def is_other_parsed_line : Line → Bool
  | Line.ok d => !(decide (d.type = ("user".data) ∨ d.type = ("assistant".data)))
  | _ => false

/-- A literal keyword compiled with `re.IGNORECASE`, as a search function:
case-insensitive substring containment. -/
def lit_pattern (pat : List Char) (s : List Char) : Bool :=
  decide ((pat.map Char.toLower) <:+: (s.map Char.toLower))

/-- A conversation record whose cached preview is `a` and whose summary is
`b`. -/
def conv_ab : ConversationRecord :=
  { file_name := ("f".data), file_path := ("f".data), file_size := 0
    modified_time := 0, created_time := 0, message_count := 1
    summary := some ("b".data), first_user_msg := some ("a".data)
    last_timestamp := none, total_tokens := 0
    token_analysis := TokenAnalysis.mk 0 0 0 0 0 0 }

/-- A previously built one-project index. -/
def prev_index : ProjectIndex := [(("p1".data), [conv_ab])]

/-- A well-formed log file holding one user message, modified most
recently. -/
def fileA : FileInput :=
  { file_name := ("a".data), file_path := ("a".data), st_size := 10
    st_mtime := 3, st_ctime := 0
    lines := [Line.ok (LogRecord.mk ("user".data) [] (Content.str ("hi".data)) none)] }

/-- A well-formed log file holding one assistant message. -/
def fileB : FileInput :=
  { file_name := ("b".data), file_path := ("b".data), st_size := 10
    st_mtime := 2, st_ctime := 0
    lines := [Line.ok (LogRecord.mk ("assistant".data) [] (Content.str ("yo".data)) none)] }

/-- A log file every line of which fails JSON parsing. -/
def fileC : FileInput :=
  { file_name := ("c".data), file_path := ("c".data), st_size := 10
    st_mtime := 1, st_ctime := 0
    lines := [Line.bad, Line.bad] }

/-- A log file whose single user message is 101 characters long. -/
def file_long_msg : FileInput :=
  { file_name := ("f".data), file_path := ("f".data), st_size := 0
    st_mtime := 0, st_ctime := 0
    lines := [Line.ok (LogRecord.mk ("user".data) []
      (Content.str (List.replicate 101 (Char.ofNat 0x61))) none)] }

/-! Helper lemmas. -/

/-- Floor form of the estimate: for non-empty input, `estimate_tokens` is
the floor of the rational weighted sum, clamped below by 1. -/
theorem estimate_tokens_eq_floor (t : List Char) (h : t ≠ []) :
    estimate_tokens t = max 1 (⌊(chinese_chars t : ℚ) * (18 / 10) +
      (english_chars t : ℚ) / 4 + (digit_chars t : ℚ) / 2 +
      ((space_chars t : ℚ) + (punct_chars t : ℚ)) / 5⌋).toNat := by
  rw [estimate_tokens, if_neg h]
  have hq : (chinese_chars t : ℚ) * (18 / 10) + (english_chars t : ℚ) / 4 +
      (digit_chars t : ℚ) / 2 + ((space_chars t : ℚ) + (punct_chars t : ℚ)) / 5 =
      ((36 * chinese_chars t + 5 * english_chars t + 10 * digit_chars t +
        4 * (space_chars t + punct_chars t) : ℕ) : ℚ) / (20 : ℕ) := by
    push_cast
    ring
  rw [hq, Int.floor_toNat, Nat.floor_div_nat, Nat.floor_natCast]

/-- Dropping a satisfying prefix does not change whether every element
satisfies the predicate. -/
theorem forall_dropWhile_iff (p : Char → Bool) (s : List Char) :
    (∀ c ∈ s.dropWhile p, p c = true) ↔ (∀ c ∈ s, p c = true) := by
  induction s with
  | nil => simp
  | cons a s ih =>
    by_cases h : p a = true
    · simp [List.dropWhile_cons, h, ih]
    · simp [List.dropWhile_cons, h]

/-- Stripping yields the empty string exactly on whitespace-only input. -/
theorem pyStrip_eq_nil_iff (s : List Char) :
    pyStrip s = [] ↔ ∀ c ∈ s, isSpaceChar c = true := by
  unfold pyStrip
  rw [List.reverse_eq_nil_iff, List.dropWhile_eq_nil_iff]
  simp only [List.mem_reverse]
  rw [forall_dropWhile_iff]

/-- The estimate of a non-empty text is at least 1. -/
theorem one_le_estimate (t : List Char) (h : t ≠ []) : 1 ≤ estimate_tokens t := by
  rw [estimate_tokens, if_neg h]
  exact Nat.le_max_left 1 _

/-- The natural-side and integer-side clampings agree. -/
theorem toNat_max_one (i : ℤ) : (max 1 i).toNat = max 1 i.toNat := by
  rcases le_total i 1 with h | h
  · rw [max_eq_left h]
    have : i.toNat ≤ 1 := by omega
    omega
  · rw [max_eq_right h]
    omega

/-! Claim 3: the estimate-mode token formula. -/

/-- Claim 3: in estimate mode, a text that is non-empty after trimming is
counted as `max(1, floor(CJK*1.8 + Latin/4 + digit/2 + other/5))` over the
trimmed text; in particular `hello` yields 1 and ten CJK ideographs yield
18. -/
theorem claim3_estimate_formula :
    (∀ s : List Char, pyStrip s ≠ [] → count_tokens s = claimed_estimate (pyStrip s)) ∧
    count_tokens ("hello".data) = 1 ∧
    count_tokens (List.replicate 10 (Char.ofNat 0x4E2D)) = 18 := by
  refine ⟨fun s h => ?_, by decide, by decide⟩
  rw [count_tokens, if_neg h, claimed_estimate, estimate_tokens_eq_floor _ h, toNat_max_one]

/-- Witness for claim 3 at the concrete text `hello`. -/
theorem claim3_estimate_formula_witness :
    count_tokens ("hello".data) = claimed_estimate (pyStrip ("hello".data)) :=
  claim3_estimate_formula.1 ("hello".data) (by decide)

/-! Claim 5: the zero/at-least-one contract of `count_tokens`. -/

/-- Claim 5: `count_tokens` returns 0 exactly on empty or whitespace-only
text and at least 1 on every other text, in estimate mode and in precise
mode (whose external encoder never encodes a non-empty text to zero
tokens, and whose failures fall back to the estimate). -/
theorem claim5_count_tokens_contract :
    ∀ s : List Char,
      ((∀ c ∈ s, isSpaceChar c = true) →
        count_tokens s = 0 ∧
        ∀ enc : List Char → Option (List Nat), count_tokens_precise enc s = 0) ∧
      ((¬ ∀ c ∈ s, isSpaceChar c = true) →
        1 ≤ count_tokens s ∧
        ∀ enc : List Char → Option (List Nat),
          (∀ t toks, enc t = some toks → t ≠ [] → toks ≠ []) →
          1 ≤ count_tokens_precise enc s) := by
  intro s
  constructor
  · intro h
    have hs : pyStrip s = [] := (pyStrip_eq_nil_iff s).mpr h
    exact ⟨by rw [count_tokens, if_pos hs],
      fun enc => by rw [count_tokens_precise, if_pos hs]⟩
  · intro h
    have hs : pyStrip s ≠ [] := fun hc => h ((pyStrip_eq_nil_iff s).mp hc)
    refine ⟨?_, ?_⟩
    · rw [count_tokens, if_neg hs]
      exact one_le_estimate _ hs
    · intro enc henc
      rw [count_tokens_precise, if_neg hs]
      cases hE : enc (pyStrip s) with
      | none => exact one_le_estimate _ hs
      | some toks =>
        have hne : toks ≠ [] := henc _ _ hE hs
        exact List.length_pos.mpr hne

/-- Witness for claim 5: whitespace-only text counts 0, other text counts
at least 1, in both modes. -/
theorem claim5_count_tokens_contract_witness :
    count_tokens ("  ".data) = 0 ∧
    count_tokens_precise (fun _ => some [0]) ("  ".data) = 0 ∧
    1 ≤ count_tokens ("hi".data) ∧
    1 ≤ count_tokens_precise (fun _ => some [0]) ("hi".data) := by
  have h1 := (claim5_count_tokens_contract ("  ".data)).1 (by decide)
  have h2 := (claim5_count_tokens_contract ("hi".data)).2 (by decide)
  refine ⟨h1.1, h1.2 _, h2.1, h2.2 _ ?_⟩
  intro t toks ht _
  cases ht
  simp

/-! Claim 4: message-level token accounting. -/

/-- The block fold of `_calculate_message_tokens` is the sum of the
per-block costs. -/
theorem foldl_blocks_eq_sum (bs : List ContentBlock) (a : Nat) :
    bs.foldl (fun acc b =>
      match b with
      | ContentBlock.text s => acc + count_tokens s
      | ContentBlock.image => acc + 85
      | ContentBlock.other => acc) a =
    a + (bs.map claimed_block_tokens).sum := by
  induction bs generalizing a with
  | nil => simp
  | cons b bs ih =>
    cases b <;> simp [ih, claimed_block_tokens, Nat.add_assoc]

/-- Claim 4: every message is counted as its claim-side description says —
summary text for summary messages, per-block text counts plus 85 per image
for user/assistant messages (a plain string standing for its single text
block), nothing for unrecognized types, plus the structural overhead of 10
for every message. -/
theorem claim4_message_tokens (d : LogRecord) :
    calculate_message_tokens d = claimed_message_tokens d := by
  rw [calculate_message_tokens, claimed_message_tokens]
  by_cases h1 : d.type = ("summary".data)
  · simp [h1]
  · by_cases h2 : d.type = ("user".data) ∨ d.type = ("assistant".data)
    · simp only [h1, if_false, h2, if_true]
      cases hc : d.content with
      | str s => simp [claimed_blocks, claimed_block_tokens]
      | blocks bs => simp [claimed_blocks, foldl_blocks_eq_sum]
    · simp [h1, h2]

/-! Claim 6: cache capacity bounds. -/

/-- Dict assignment grows a map by at most one entry. -/
theorem dictInsert_length_le {K V : Type} [DecidableEq K] (c : List (K × V)) (k : K) (v : V) :
    (dictInsert c k v).length ≤ c.length + 1 := by
  rw [dictInsert]
  split
  · simp
  · simp

/-- A fold of cache steps from an in-bound cache stays in bound, provided
each step preserves the bound. -/
theorem run_cache_bound {K V : Type} (step : List (K × V) → K → V → List (K × V))
    (cap : Nat) (hstep : ∀ c k v, c.length ≤ cap → (step c k v).length ≤ cap) :
    ∀ ops : List (K × V), (run_cache step ops).length ≤ cap := by
  have haux : ∀ (ops : List (K × V)) (c : List (K × V)), c.length ≤ cap →
      (ops.foldl (fun c p => step c p.1 p.2) c).length ≤ cap := by
    intro ops
    induction ops with
    | nil => intro c hc; simpa using hc
    | cons p ops ih => intro c hc; exact ih _ (hstep c p.1 p.2 hc)
  intro ops
  exact haux ops [] (by simp)

/-- The message-token cache step keeps at most 500 entries. -/
theorem message_cache_step_bound {K V : Type} [DecidableEq K]
    (c : List (K × V)) (k : K) (v : V) (hc : c.length ≤ 500) :
    (message_cache_step c k v).length ≤ 500 := by
  rw [message_cache_step]
  split
  · exact hc
  · dsimp only
    have h2 : (c ++ [(k, v)]).length = c.length + 1 := by simp
    split
    · simp only [List.length_drop]
      omega
    · omega

/-- The file-analysis cache step keeps at most 100 entries. -/
theorem file_cache_step_bound {K V : Type} [DecidableEq K]
    (c : List (K × V)) (k : K) (v : V) (hc : c.length ≤ 100) :
    (file_cache_step c k v).length ≤ 100 := by
  rw [file_cache_step]
  split
  · exact hc
  · refine le_trans (dictInsert_length_le _ _ _) ?_
    split
    · simp only [List.length_drop]
      omega
    · omega

/-- The search-result cache step keeps at most 50 entries. -/
theorem search_cache_step_bound {K V : Type} [DecidableEq K]
    (c : List (K × V)) (k : K) (v : V) (hc : c.length ≤ 50) :
    (search_cache_step c k v).length ≤ 50 := by
  rw [search_cache_step]
  split
  · exact hc
  · refine le_trans (dictInsert_length_le _ _ _) ?_
    split
    · simp only [List.length_drop]
      omega
    · omega

/-- Claim 6: after any sequence of lookups/insertions starting from the
empty caches, the message-token cache holds at most 500 entries, the
file-analysis cache at most 100, and the search-result cache at most 50
(the batch eviction sizes — 100, 20 and 1 oldest entries — are those of
`message_cache_step`, `file_cache_step` and `search_cache_step`). -/
theorem claim6_cache_bounds :
    (∀ ops : List (List Char × Nat),
      (run_cache message_cache_step ops).length ≤ 500) ∧
    (∀ ops : List (List Char × ConversationRecord),
      (run_cache file_cache_step ops).length ≤ 100) ∧
    (∀ ops : List (List Char × List (ConversationRecord × List SearchMatch)),
      (run_cache search_cache_step ops).length ≤ 50) :=
  ⟨run_cache_bound _ 500 message_cache_step_bound,
   run_cache_bound _ 100 file_cache_step_bound,
   run_cache_bound _ 50 search_cache_step_bound⟩

/-! Claim 8: the per-file match cap. -/

/-- The full-scan loop never grows past 10 matches when entered below the
cap. -/
theorem search_scan_length_le (p : List Char → Bool) :
    ∀ (ls : List Line) (n : Nat) (acc : List SearchMatch), acc.length < 10 →
      (search_scan p acc n ls).length ≤ 10 := by
  intro ls
  induction ls with
  | nil => intro n acc hacc; rw [search_scan]; omega
  | cons l ls ih =>
    intro n acc hacc
    cases l with
    | blank => rw [search_scan]; exact ih _ _ hacc
    | bad => rw [search_scan]; exact ih _ _ hacc
    | ok d =>
      rw [search_scan]
      dsimp only
      split
      · split
        · rename_i h10
          simp only [List.length_append, List.length_cons, List.length_nil] at h10 ⊢
          omega
        · rename_i hlt
          refine ih _ _ ?_
          simp only [List.length_append, List.length_cons, List.length_nil] at hlt ⊢
          omega
      · exact ih _ _ hacc

/-- Claim 8: a per-conversation search returns at most 10 matches, on both
the short-circuit path and the full scan. -/
theorem claim8_match_cap (p : List Char → Bool) (conv : ConversationRecord)
    (fileLines : List Line) :
    (search_in_conversation p conv fileLines).length ≤ 10 := by
  rw [search_in_conversation]
  dsimp only
  split
  · simp
  · exact search_scan_length_le p fileLines 1 [] (by simp)

/-! Claim 7: the short-circuit preview match. -/

/-- Counterexample to claim 7 as stated: the pattern `ab` matches the plain
concatenation of the cached preview `a` and summary `b`, yet the search
does not short-circuit (the code tests the space-joined string `a b`), and
with an empty file it returns no match at all instead of the single
preview match. -/
theorem claim7_counterexample :
    lit_pattern ("ab".data)
      (pyFormatOpt conv_ab.first_user_msg ++ pyFormatOpt conv_ab.summary) = true ∧
    search_in_conversation (lit_pattern ("ab".data)) conv_ab [] = [] := by
  constructor
  · decide
  · decide

/-- Claim 7 as amended: when the pattern matches the preview and summary
joined with a single space (absent fields rendering as `None`), the search
returns exactly the single short-circuit match — line number 0, field
`preview`, flag set — independently of the file's contents (no file
I/O). -/
theorem claim7_short_circuit (p : List Char → Bool) (conv : ConversationRecord)
    (h : p (pyFormatOpt conv.first_user_msg ++ (" ".data) ++
      pyFormatOpt conv.summary) = true) :
    ∀ fileLines fileLines' : List Line,
      search_in_conversation p conv fileLines =
        [{ line_number := 0, field_name := ("preview".data)
           message_type := ("quick_match".data), timestamp := conv.last_timestamp
           preview := true }] ∧
      search_in_conversation p conv fileLines = search_in_conversation p conv fileLines' := by
  intro fileLines fileLines'
  rw [search_in_conversation, search_in_conversation]
  dsimp only
  rw [if_pos h, if_pos h]
  exact ⟨rfl, rfl⟩

/-- Witness for the amended claim 7: a preview hit on keyword `a` returns
the single short-circuit match for two different file contents. -/
theorem claim7_short_circuit_witness :
    search_in_conversation (lit_pattern ("a".data)) conv_ab [Line.bad] =
      [{ line_number := 0, field_name := ("preview".data)
         message_type := ("quick_match".data), timestamp := conv_ab.last_timestamp
         preview := true }] ∧
    search_in_conversation (lit_pattern ("a".data)) conv_ab [Line.bad] =
      search_in_conversation (lit_pattern ("a".data)) conv_ab [] :=
  claim7_short_circuit (lit_pattern ("a".data)) conv_ab (by decide) [Line.bad] []

/-! Claim 9: the first-user-message preview. -/

/-- Projection of one scan step on a parsed line: the collected
conversation data. -/
theorem scan_line_ok_cd (st : ScanState) (n : Nat) (d : LogRecord) :
    (scan_line st n (Line.ok d)).conversation_data = st.conversation_data ++ [(n, d)] := rfl

/-- Projection of one scan step on a parsed line: the message count. -/
theorem scan_line_ok_mc (st : ScanState) (n : Nat) (d : LogRecord) :
    (scan_line st n (Line.ok d)).message_count =
      if d.type = ("user".data) ∨ d.type = ("assistant".data) then st.message_count + 1
      else st.message_count := rfl

/-- The preview computed by the scan is the first one of the remaining
lines unless already set. -/
theorem scan_lines_fum (ls : List Line) : ∀ (st : ScanState) (n : Nat),
    (scan_lines st n ls).first_user_msg =
      opt_or st.first_user_msg (spec_first_preview ls) := by
  induction ls with
  | nil =>
    intro st n
    rw [scan_lines, spec_first_preview]
    cases st.first_user_msg <;> rfl
  | cons l ls ih =>
    intro st n
    rw [scan_lines, ih]
    cases l with
    | blank => rfl
    | bad => rfl
    | ok d =>
      cases hfum : st.first_user_msg with
      | some p => simp [scan_line, spec_first_preview, opt_or, hfum]
      | none =>
        by_cases htype : d.type = ("user".data)
        · cases hps : preview_source d.content with
          | some s => simp [scan_line, spec_first_preview, opt_or, hfum, htype, hps]
          | none => simp [scan_line, spec_first_preview, opt_or, hfum, htype, hps]
        · simp [scan_line, spec_first_preview, opt_or, hfum, htype]

/-- Counterexample to claim 9 as stated: a 101-character user message is
stored as a 103-character preview (its first 100 characters plus the
ellipsis `...`), exceeding 100 characters. -/
theorem claim9_counterexample :
    ((perform_file_analysis file_long_msg).first_user_msg.map List.length) = some 103 ∧
    ((perform_file_analysis file_long_msg).first_user_msg.all
      (fun p => decide (p.length ≤ 100))) = false := by
  constructor
  · decide
  · decide

/-- Claim 9 as amended: the stored preview is the text of the first
user message with extractable text, kept whole when at most 100 characters
and otherwise truncated to its first 100 characters with an appended
`...` (103 characters in total). -/
theorem claim9_preview_truncation (f : FileInput) :
    (perform_file_analysis f).first_user_msg = spec_first_preview f.lines := by
  rw [perform_file_analysis]
  dsimp only
  rw [scan_lines_fum]
  rfl

/-! Claim 10: the two message counts. -/

/-- The scan's message count adds one per parsed user/assistant line. -/
theorem scan_lines_message_count (ls : List Line) : ∀ (st : ScanState) (n : Nat),
    (scan_lines st n ls).message_count = st.message_count + ls.countP is_ua_line := by
  induction ls with
  | nil => intro st n; rw [scan_lines]; simp
  | cons l ls ih =>
    intro st n
    rw [scan_lines, ih, List.countP_cons]
    cases l with
    | blank => simp [scan_line, is_ua_line]
    | bad => simp [scan_line, is_ua_line]
    | ok d =>
      rw [scan_line_ok_mc]
      by_cases h : d.type = ("user".data) ∨ d.type = ("assistant".data)
      · simp only [h, if_true, is_ua_line, decide_eq_true_eq]
        omega
      · simp only [h, if_false, is_ua_line, decide_eq_true_eq]
        omega

/-- The scan collects one conversation-data entry per parsed line. -/
theorem scan_lines_cd_length (ls : List Line) : ∀ (st : ScanState) (n : Nat),
    (scan_lines st n ls).conversation_data.length =
      st.conversation_data.length + ls.countP is_parsed_line := by
  induction ls with
  | nil => intro st n; rw [scan_lines]; simp
  | cons l ls ih =>
    intro st n
    rw [scan_lines, ih, List.countP_cons]
    cases l with
    | blank => simp [scan_line, is_parsed_line]
    | bad => simp [scan_line, is_parsed_line]
    | ok d =>
      rw [scan_line_ok_cd]
      simp [is_parsed_line]
      omega

/-- The token-analysis fold counts every entry. -/
theorem tok_foldl_count (cd : List (Nat × LogRecord)) : ∀ a : TokAcc,
    (cd.foldl (fun a p => tok_step a p.2) a).message_count = a.message_count + cd.length := by
  induction cd with
  | nil => intro a; simp
  | cons p cd ih =>
    intro a
    rw [List.foldl_cons, ih, List.length_cons]
    have h : (tok_step a p.2).message_count = a.message_count + 1 := rfl
    omega

/-- The token analysis counts every parsed line of the conversation. -/
theorem analyze_message_count (cd : List (Nat × LogRecord)) :
    (analyze_conversation_tokens cd).message_count = cd.length := by
  rw [analyze_conversation_tokens]
  split
  · rename_i h
    simp [h]
  · dsimp only
    rw [tok_foldl_count]
    simp

/-- Parsed lines split into user/assistant lines and the rest. -/
theorem countP_parsed_split (ls : List Line) :
    ls.countP is_parsed_line = ls.countP is_ua_line + ls.countP is_other_parsed_line := by
  induction ls with
  | nil => simp
  | cons l ls ih =>
    rw [List.countP_cons, List.countP_cons, List.countP_cons, ih]
    cases l with
    | blank => simp [is_parsed_line, is_ua_line, is_other_parsed_line]
    | bad => simp [is_parsed_line, is_ua_line, is_other_parsed_line]
    | ok d =>
      by_cases h : d.type = ("user".data) ∨ d.type = ("assistant".data)
      · simp [is_parsed_line, is_ua_line, is_other_parsed_line, h]
        omega
      · simp [is_parsed_line, is_ua_line, is_other_parsed_line, h]
        omega

/-- Claim 10: the record's `message_count` counts the parsed user/assistant
lines, the embedded analysis' `message_count` counts all parsed lines, the
former never exceeds the latter, and they differ exactly when some parsed
line has another type (summary or unrecognized). -/
theorem claim10_message_count_relation (f : FileInput) :
    (perform_file_analysis f).message_count = f.lines.countP is_ua_line ∧
    (perform_file_analysis f).token_analysis.message_count = f.lines.countP is_parsed_line ∧
    (perform_file_analysis f).message_count ≤
      (perform_file_analysis f).token_analysis.message_count ∧
    ((perform_file_analysis f).message_count <
        (perform_file_analysis f).token_analysis.message_count ↔
      f.lines.any is_other_parsed_line = true) := by
  have h1 : (perform_file_analysis f).message_count = f.lines.countP is_ua_line := by
    rw [perform_file_analysis]
    dsimp only
    rw [scan_lines_message_count]
    simp
  have h2 : (perform_file_analysis f).token_analysis.message_count =
      f.lines.countP is_parsed_line := by
    rw [perform_file_analysis]
    dsimp only
    rw [analyze_message_count, scan_lines_cd_length]
    simp
  have h3 := countP_parsed_split f.lines
  refine ⟨h1, h2, by rw [h1, h2]; omega, ?_⟩
  rw [h1, h2, h3]
  constructor
  · intro h
    have hpos : 0 < f.lines.countP is_other_parsed_line := by omega
    obtain ⟨a, ha, hp⟩ := List.countP_pos_iff.mp hpos
    exact List.any_eq_true.mpr ⟨a, ha, hp⟩
  · intro h
    obtain ⟨a, ha, hp⟩ := List.any_eq_true.mp h
    have hpos : 0 < f.lines.countP is_other_parsed_line :=
      List.countP_pos_iff.mpr ⟨a, ha, hp⟩
    omega

/-! Claim 2: scanning a project with one fully malformed file. -/

/-- Insertion preserves length. -/
theorem length_insert_rec_desc (r : ConversationRecord) (l : List ConversationRecord) :
    (insert_rec_desc r l).length = l.length + 1 := by
  induction l with
  | nil => rfl
  | cons x xs ih =>
    rw [insert_rec_desc]
    split
    · simp
    · simp [ih]

/-- Sorting preserves length. -/
theorem length_sort_by_mtime_desc (l : List ConversationRecord) :
    (sort_by_mtime_desc l).length = l.length := by
  induction l with
  | nil => rfl
  | cons x xs ih =>
    show (insert_rec_desc x (sort_by_mtime_desc xs)).length = _
    rw [length_insert_rec_desc, ih]
    rfl

/-- Insertion is a permutation of consing. -/
theorem perm_insert_rec_desc (r : ConversationRecord) (l : List ConversationRecord) :
    List.Perm (insert_rec_desc r l) (r :: l) := by
  induction l with
  | nil => exact List.Perm.refl _
  | cons x xs ih =>
    rw [insert_rec_desc]
    split
    · exact List.Perm.refl _
    · exact List.Perm.trans (List.Perm.cons x ih) (List.Perm.swap r x xs)

/-- The sorted records are a permutation of the collected ones. -/
theorem perm_sort_by_mtime_desc (l : List ConversationRecord) :
    List.Perm (sort_by_mtime_desc l) l := by
  induction l with
  | nil => exact List.Perm.refl _
  | cons x xs ih =>
    show List.Perm (insert_rec_desc x (sort_by_mtime_desc xs)) _
    exact List.Perm.trans (perm_insert_rec_desc x _) (List.Perm.cons x ih)

/-- A run of only-malformed lines leaves the scan state untouched. -/
theorem scan_lines_all_bad (ls : List Line) : ∀ (st : ScanState) (n : Nat),
    (∀ l ∈ ls, l = Line.bad) → scan_lines st n ls = st := by
  induction ls with
  | nil => intro st n _; rfl
  | cons l ls ih =>
    intro st n h
    have hl : l = Line.bad := h l (List.mem_cons_self l ls)
    subst hl
    rw [scan_lines]
    exact ih st (n + 1) (fun x hx => h x (List.mem_cons_of_mem _ hx))

/-- A file every line of which is malformed analyzes to a record with no
messages and no tokens. -/
theorem perform_all_bad (f : FileInput) (h : ∀ l ∈ f.lines, l = Line.bad) :
    (perform_file_analysis f).message_count = 0 ∧
    (perform_file_analysis f).total_tokens = 0 := by
  rw [perform_file_analysis]
  dsimp only
  rw [scan_lines_all_bad _ _ _ h]
  exact ⟨rfl, by simp [analyze_conversation_tokens]⟩

/-- Counterexample to claim 2 as stated: a project of three files, one of
them malformed on every line, yields three conversation records, not
two — the malformed file still produces an (empty) record. -/
theorem claim2_counterexample :
    (fileC.lines.all (fun l => decide (l = Line.bad))) = true ∧
    ((analyze_project_concurrent ("p".data) [fileA, fileB, fileC]).2).length = 3 := by
  constructor
  · decide
  · decide

/-- Claim 2 as amended: scanning a project of three readable files, one of
them malformed on every line, returns three records without any failure;
the malformed file's record carries zero messages and zero tokens, so the
project's total message count is contributed only by the two well-formed
files. -/
theorem claim2_malformed_file_scan (name : List Char) (f1 f2 f3 : FileInput)
    (h : ∀ l ∈ f3.lines, l = Line.bad) :
    ((analyze_project_concurrent name [f1, f2, f3]).2).length = 3 ∧
    (perform_file_analysis f3).message_count = 0 ∧
    (perform_file_analysis f3).total_tokens = 0 ∧
    (((analyze_project_concurrent name [f1, f2, f3]).2).map
        (fun r => r.message_count)).sum =
      (perform_file_analysis f1).message_count +
        (perform_file_analysis f2).message_count := by
  have hne : ([f1, f2, f3] : List FileInput) ≠ [] := by simp
  have hmain : (analyze_project_concurrent name [f1, f2, f3]).2 =
      sort_by_mtime_desc [perform_file_analysis f1, perform_file_analysis f2,
        perform_file_analysis f3] := by
    rw [analyze_project_concurrent, if_neg hne]
    rfl
  obtain ⟨hmc, htt⟩ := perform_all_bad f3 h
  refine ⟨?_, hmc, htt, ?_⟩
  · rw [hmain, length_sort_by_mtime_desc]
    rfl
  · rw [hmain]
    have hperm := (perm_sort_by_mtime_desc [perform_file_analysis f1,
      perform_file_analysis f2, perform_file_analysis f3]).map
      (fun r : ConversationRecord => r.message_count)
    rw [hperm.sum_eq]
    simp [hmc]

/-- Witness for the amended claim 2 at a concrete three-file project. -/
theorem claim2_malformed_file_scan_witness :
    ((analyze_project_concurrent ("p".data) [fileA, fileB, fileC]).2).length = 3 ∧
    (perform_file_analysis fileC).message_count = 0 ∧
    (perform_file_analysis fileC).total_tokens = 0 ∧
    (((analyze_project_concurrent ("p".data) [fileA, fileB, fileC]).2).map
        (fun r => r.message_count)).sum =
      (perform_file_analysis fileA).message_count +
        (perform_file_analysis fileB).message_count :=
  claim2_malformed_file_scan ("p".data) fileA fileB fileC (by decide)

/-! Claim 1: failure behavior of a full rescan. -/

/-- Counterexample to claim 1 as stated: when the scan thread's directory
enumeration fails, a typed error is surfaced but the visible index is not
the previous one — the thread cleared it before enumerating. -/
theorem claim1_counterexample :
    (load_projects_thread prev_index none).1 = some LoadError.loadFailed ∧
    (load_projects_thread prev_index none).2 ≠ prev_index := by
  constructor
  · rfl
  · decide

/-- Claim 1 as amended: a missing root path detected by the pre-scan check
surfaces a single typed error and leaves the index exactly as it was; but
once the scan thread has started, the visible index is reset immediately,
so a top-level failure inside the thread surfaces a typed error with the
index left cleared (not the previous one), and only a completed scan
installs the freshly built index. -/
theorem claim1_load_failure_behavior :
    (∀ (prev : ProjectIndex) (listing : Option (List ProjectInput)),
      load_projects false prev listing = (some LoadError.rootMissing, prev)) ∧
    (∀ prev : ProjectIndex,
      load_projects_thread prev none = (some LoadError.loadFailed, [])) ∧
    (∀ (prev : ProjectIndex) (dirs : List ProjectInput),
      load_projects_thread prev (some dirs) = (none, build_index dirs)) :=
  ⟨fun _ _ => rfl, fun _ => rfl, fun _ _ => rfl⟩
